import Mathlib

/-!
Shallow embedding of the Coinafrica scraper pipeline
(`src/app/my_data_app.py`): price normalization (`clean_price_to_int`),
page fetching (`fetch_page`), HTML item extraction
(`extract_items_from_page_text`), pagination orchestration
(`scrape_category`) and idempotent schema provisioning
(`create_tables_if_not_exists`).

Modelling conventions:
* Python `None`-able strings become `Option String`; Python truthiness of a
  string (`if not s`) is emptiness, and of an `Option` it is
  `none`-or-empty.
* The HTML page, as far as the extractor inspects it, is a list of ad-card
  containers (`div.col.s6.m4.l3`), each holding the stripped text of its
  optional `p.ad__card-description`, `p.ad__card-price`,
  `p.ad__card-location` children and the `src` / `data-src` attributes of
  its optional `img.ad__card-img` child.  The BeautifulSoup parsing step
  itself is an abstract function `parse : String → List AdCard`.
* The HTTP transport behind `requests.get` is an abstract function from a
  request to a response; `resp.raise_for_status()` raises exactly for
  status codes in [400, 600).
* Wall-clock time (`pd.Timestamp.now().isoformat()`, called once per
  processed page) is an abstract `clock : Nat → String` indexed by the
  page number; `time.sleep` only delays and is not modelled.
* The SQLite database is a list of tables (name plus column names);
  `CREATE TABLE IF NOT EXISTS` appends a table exactly when no table of
  that name exists.
-/

/-- Result of one transport-level HTTP exchange: a response with a status
code and a body, or a transport error (timeout, connection failure, ...). -/
inductive HttpResult where
  | ok (status : Nat) (body : String)
  | transportError (msg : String)
deriving DecidableEq

/-- One HTTP request as `fetch_page` issues it: the URL, the single
`User-Agent` header value, and the timeout (seconds). -/
structure HttpRequest where
  url : String
  userAgent : String
  timeout : Nat
deriving DecidableEq

/-- The static identification header of `fetch_page` (line 158). -/
def scraperUserAgent : String := "Mozilla/5.0 (compatible; CoinafricaScraper/1.0)"

/-- Embeds `fetch_page` (lines 154-165): one GET with headers and `timeout=12`;
`raise_for_status` turns any 4xx/5xx status into an exception, and every
exception is caught and mapped to `None`.  Besides the `Option String`
result we return the list of transport requests actually issued, to state
that exactly one request is made (no retry). -/
def fetch_page (http : HttpRequest → HttpResult) (url : String) :
    Option String × List HttpRequest :=
  let req : HttpRequest := { url := url, userAgent := scraperUserAgent, timeout := 12 }
  match http req with
  | HttpResult.ok status body =>
      (if 400 ≤ status ∧ status < 600 then none else some body, [req])
  | HttpResult.transportError _ => (none, [req])

/-- Horner accumulation of a digit list, as `int(digits)` computes the
value of a decimal digit string (base 10, most significant first). -/
def digitsToNat (ds : List Char) : Nat :=
  ds.foldl (fun acc c => 10 * acc + (c.toNat - 48)) 0

/-- Embeds `clean_price_to_int` (lines 146-152): `None`/empty input gives `None`;
otherwise `re.sub(r"[^0-9]", "", price_raw)` keeps exactly the ASCII
decimal digits, and the result is `int(digits)` unless no digit is left. -/
def clean_price_to_int (price_raw : Option String) : Option Nat :=
  match price_raw with
  | none => none
  | some s =>
      if s = "" then none
      else
        let digits := s.toList.filter Char.isDigit
        if digits.isEmpty then none else some (digitsToNat digits)

/-- Positional value of a decimal digit string: each digit weighted by ten
to the power of the number of digits to its right.  This is the
specification-side meaning of "parse as a base-10 non-negative integer". -/
def decValue : List Char → Nat
  | [] => 0
  | c :: cs => (c.toNat - 48) * 10 ^ cs.length + decValue cs

/-- One database table: its name and its column names. -/
structure Table where
  name : String
  columns : List String
deriving DecidableEq

/-- Table `raw_ads` (lines 70-79). -/
def rawAdsTable : Table :=
  { name := "raw_ads",
    columns := ["category", "name", "price_raw", "address", "image_link", "scraped_at"] }

/-- Table `cleaned_ads` (lines 84-93). -/
def cleanedAdsTable : Table :=
  { name := "cleaned_ads",
    columns := ["category", "name", "price", "address", "image_link", "scraped_at"] }

/-- Table `evaluations` (lines 96-107). -/
def evaluationsTable : Table :=
  { name := "evaluations",
    columns := ["id", "name", "email", "rating", "pros", "cons", "comment", "submitted_at"] }

/-- Whether the store already holds a table of the given name. -/
def hasTable (s : List Table) (n : String) : Bool :=
  s.any (fun t => t.name == n)

/-- One `CREATE TABLE IF NOT EXISTS` statement: a no-op when a table of
that name exists, otherwise it adds the table. -/
def createTableIfNotExists (s : List Table) (t : Table) : List Table :=
  if hasTable s t.name then s else s ++ [t]

/-- Embeds `create_tables_if_not_exists` (lines 66-109): provisions `raw_ads`,
`cleaned_ads` and `evaluations`, each guarded by `IF NOT EXISTS`. -/
def create_tables_if_not_exists (s : List Table) : List Table :=
  createTableIfNotExists
    (createTableIfNotExists (createTableIfNotExists s rawAdsTable) cleanedAdsTable)
    evaluationsTable

/-- The names of the store's tables, in order. -/
def tableNames (s : List Table) : List String :=
  s.map (fun t => t.name)

/-- The `src` and `data-src` attributes of an `img.ad__card-img` tag, each
possibly absent (and possibly the empty string when present). -/
structure ImgAttrs where
  src : Option String
  dataSrc : Option String
deriving DecidableEq

/-- One ad-card container (`div.col.s6.m4.l3`) as the extractor inspects
it: the stripped text of each optional child paragraph, and the optional
image tag's attributes. -/
structure AdCard where
  descriptionText : Option String
  priceText : Option String
  locationText : Option String
  imgTag : Option ImgAttrs
deriving DecidableEq

/-- One extracted item (the dict built at lines 138-143). -/
structure ExtractedItem where
  name : Option String
  price_raw : Option String
  address : Option String
  image_link : Option String
deriving DecidableEq

/-- Python `a or b` on optional strings: `a` when it is truthy (present
and non-empty), otherwise `b` unchanged. -/
def pyOrOpt (a b : Option String) : Option String :=
  match a with
  | none => b
  | some s => if s = "" then b else some s

/-- The per-container body of the extraction loop (lines 120-143): each
text field is the child's stripped text when the child exists, else
`None`; `image_link` starts as `None` and, when the `img` tag exists,
becomes `img.get("src") or img.get("data-src")`. -/
def itemOfCard (card : AdCard) : ExtractedItem :=
  { name := card.descriptionText,
    price_raw := card.priceText,
    address := card.locationText,
    image_link :=
      match card.imgTag with
      | none => none
      | some img => pyOrOpt img.src img.dataSrc }

/-- Embeds `extract_items_from_page_text` (lines 115-144): `find_all` returns the
matching containers (here: `parse html_text`) and each yields exactly one
result dict. -/
def extract_items_from_page_text (parse : String → List AdCard)
    (html_text : String) : List ExtractedItem :=
  (parse html_text).map itemOfCard

/-- One raw row (lines 184-191). -/
structure RawRecord where
  category : String
  name : Option String
  price_raw : Option String
  address : Option String
  image_link : Option String
  scraped_at : String
deriving DecidableEq

/-- One cleaned row (lines 193-200). -/
structure CleanedRecord where
  category : String
  name : Option String
  price : Option Nat
  address : Option String
  image_link : Option String
  scraped_at : String
deriving DecidableEq

/-- The raw row built from one extracted item and the page timestamp. -/
def rawRowOf (category_key : String) (it : ExtractedItem) (ts : String) : RawRecord :=
  { category := category_key,
    name := it.name,
    price_raw := it.price_raw,
    address := it.address,
    image_link := it.image_link,
    scraped_at := ts }

/-- The cleaned row built from one extracted item and the page timestamp;
`price` is `clean_price_to_int` of the raw price. -/
def cleanedRowOf (category_key : String) (it : ExtractedItem) (ts : String) : CleanedRecord :=
  { category := category_key,
    name := it.name,
    price := clean_price_to_int it.price_raw,
    address := it.address,
    image_link := it.image_link,
    scraped_at := ts }

/-- The cleaned record derived 1:1 from a raw record: same identity
fields, price replaced by the normalized raw price. -/
def rawToCleaned (r : RawRecord) : CleanedRecord :=
  { category := r.category,
    name := r.name,
    price := clean_price_to_int r.price_raw,
    address := r.address,
    image_link := r.image_link,
    scraped_at := r.scraped_at }

/-- The ambient effects `scrape_category` depends on: the result of
`fetch_page` per URL (`none` = fetch failure), the BeautifulSoup parse of
a page text into ad-card containers, and the wall clock read once at the
start of processing page `p`'s items. -/
structure ScrapeEnv where
  fetcher : String → Option String
  parse : String → List AdCard
  clock : Nat → String

/-- An observable event of one `scrape_category` run, in chronological
order: appending one raw/cleaned row pair, or one invocation of the
progress callback with its two arguments. -/
inductive ScrapeEvent where
  | append (r : RawRecord) (c : CleanedRecord)
  | progress (page maxPages : Nat)
deriving DecidableEq

/-- What one `scrape_category` run returns and does: the raw rows, the
cleaned rows, and the chronological event trace. -/
structure ScrapeResult where
  raw : List RawRecord
  cleaned : List CleanedRecord
  trace : List ScrapeEvent
deriving DecidableEq

/-- The page URL built at line 175: `f"{url_base}?page={page}"`. -/
def pageUrl (url_base : String) (page : Nat) : String :=
  url_base ++ "?page=" ++ toString page

/-- The body of the pagination loop (lines 174-206) over an explicit list
of page numbers: fetch the page; `if not html: break`; extract;
`if not items: break`; take one timestamp; append one raw and one cleaned
row per item; call the progress callback when provided. -/
def scrapePages (env : ScrapeEnv) (url_base category_key : String)
    (max_pages : Nat) (hasCallback : Bool) : List Nat → ScrapeResult
  | [] => { raw := [], cleaned := [], trace := [] }
  | page :: rest =>
      match env.fetcher (pageUrl url_base page) with
      | none => { raw := [], cleaned := [], trace := [] }
      | some html =>
          if html = "" then { raw := [], cleaned := [], trace := [] }
          else
            let items := extract_items_from_page_text env.parse html
            if items.isEmpty then { raw := [], cleaned := [], trace := [] }
            else
              let ts := env.clock page
              let raws := items.map (fun it => rawRowOf category_key it ts)
              let cleans := items.map (fun it => cleanedRowOf category_key it ts)
              let evs :=
                (items.map (fun it =>
                  ScrapeEvent.append (rawRowOf category_key it ts)
                    (cleanedRowOf category_key it ts)))
                ++ (if hasCallback then [ScrapeEvent.progress page max_pages] else [])
              let restRes := scrapePages env url_base category_key max_pages hasCallback rest
              { raw := raws ++ restRes.raw,
                cleaned := cleans ++ restRes.cleaned,
                trace := evs ++ restRes.trace }

/-- Embeds `scrape_category` (lines 167-209): run the loop over pages
`1 .. max_pages` (Python `range(1, max_pages+1)`). -/
def scrape_category (env : ScrapeEnv) (url_base category_key : String)
    (max_pages : Nat) (hasCallback : Bool) : ScrapeResult :=
  scrapePages env url_base category_key max_pages hasCallback (List.range' 1 max_pages)

/-- The items page `p` contributes: empty when the fetch fails, when the
fetched content is empty (Python truthiness), or when extraction finds no
container; otherwise the extracted items. -/
def pageItems (env : ScrapeEnv) (url_base : String) (p : Nat) : List ExtractedItem :=
  match env.fetcher (pageUrl url_base p) with
  | none => []
  | some html =>
      if html = "" then []
      else extract_items_from_page_text env.parse html

/-- Whether the loop gets past page `p`: the fetch succeeded with
non-empty content and extraction found at least one item. -/
def pageOk (env : ScrapeEnv) (url_base : String) (p : Nat) : Bool :=
  !(pageItems env url_base p).isEmpty

/-- The claim-level notion of a productive page: the fetch succeeds and
extraction of the fetched content is non-empty. -/
def specGood (env : ScrapeEnv) (url_base : String) (p : Nat) : Prop :=
  ∃ html, env.fetcher (pageUrl url_base p) = some html ∧
    extract_items_from_page_text env.parse html ≠ []

/-- The raw rows page `p` contributes, all stamped with `env.clock p`. -/
def pageRaw (env : ScrapeEnv) (url_base category_key : String) (p : Nat) : List RawRecord :=
  (pageItems env url_base p).map (fun it => rawRowOf category_key it (env.clock p))

/-- The cleaned rows page `p` contributes. -/
def pageCleaned (env : ScrapeEnv) (url_base category_key : String) (p : Nat) :
    List CleanedRecord :=
  (pageItems env url_base p).map (fun it => cleanedRowOf category_key it (env.clock p))

/-- The trace events page `p` contributes: its appended row pairs followed
by its progress-callback invocation (when a callback is provided). -/
def pageTrace (env : ScrapeEnv) (url_base category_key : String)
    (max_pages : Nat) (hasCallback : Bool) (p : Nat) : List ScrapeEvent :=
  ((pageItems env url_base p).map (fun it =>
    ScrapeEvent.append (rawRowOf category_key it (env.clock p))
      (cleanedRowOf category_key it (env.clock p))))
  ++ (if hasCallback then [ScrapeEvent.progress p max_pages] else [])

/-- The pages one run actually processes to completion: the longest prefix
of `1 .. max_pages` on which the loop never breaks. -/
def processedPages (env : ScrapeEnv) (url_base : String) (max_pages : Nat) : List Nat :=
  (List.range' 1 max_pages).takeWhile (pageOk env url_base)

/-- The progress-callback argument pair carried by a trace event, if the
event is a callback invocation. -/
def progressOf : ScrapeEvent → Option (Nat × Nat)
  | ScrapeEvent.append _ _ => none
  | ScrapeEvent.progress p m => some (p, m)

/-- The loop over any page list processes exactly the longest all-ok
prefix and concatenates the per-page contributions, in page order. -/
theorem scrapePages_eq (env : ScrapeEnv) (ub cat : String) (n : Nat) (cb : Bool) :
    ∀ ps : List Nat, scrapePages env ub cat n cb ps =
      { raw := (ps.takeWhile (pageOk env ub)).flatMap (pageRaw env ub cat),
        cleaned := (ps.takeWhile (pageOk env ub)).flatMap (pageCleaned env ub cat),
        trace := (ps.takeWhile (pageOk env ub)).flatMap (pageTrace env ub cat n cb) } := by
  intro ps
  induction ps with
  | nil => rfl
  | cons p rest ih =>
      cases hf : env.fetcher (pageUrl ub p) with
      | none =>
          have hok : pageOk env ub p = false := by
            simp [pageOk, pageItems, hf]
          simp [scrapePages, hf, List.takeWhile_cons, hok]
      | some html =>
          by_cases hh : html = ""
      -- empty content: the loop breaks before extracting
          · have hok : pageOk env ub p = false := by
              simp [pageOk, pageItems, hf, hh]
            simp [scrapePages, hf, hh, List.takeWhile_cons, hok]
          · by_cases hi : (extract_items_from_page_text env.parse html).isEmpty
            · have hok : pageOk env ub p = false := by
                simp [pageOk, pageItems, hf, hh, hi]
              simp [scrapePages, hf, hh, hi, List.takeWhile_cons, hok]
            · have hok : pageOk env ub p = true := by
                simp [pageOk, pageItems, hf, hh]
                simpa using hi
              have hitems : pageItems env ub p = extract_items_from_page_text env.parse html := by
                simp [pageItems, hf, hh]
              simp [scrapePages, hf, hh, hi, List.takeWhile_cons, hok, ih,
                pageRaw, pageCleaned, pageTrace, hitems]

/-- A run of `scrape_category` returns exactly the per-page contributions of the
processed pages, concatenated in page order. -/
theorem scrape_category_eq (env : ScrapeEnv) (ub cat : String) (n : Nat) (cb : Bool) :
    scrape_category env ub cat n cb =
      { raw := (processedPages env ub n).flatMap (pageRaw env ub cat),
        cleaned := (processedPages env ub n).flatMap (pageCleaned env ub cat),
        trace := (processedPages env ub n).flatMap (pageTrace env ub cat n cb) } :=
  scrapePages_eq env ub cat n cb (List.range' 1 n)

/-- Taking `takeWhile` of a contiguous range whose first `m` entries satisfy the
predicate and whose next entry (if any) does not keeps exactly those `m`
entries. -/
theorem takeWhile_range'_eq (ok : Nat → Bool) :
    ∀ (n m a : Nat), m ≤ n → (∀ i, i < m → ok (a + i) = true) →
      (m < n → ok (a + m) = false) →
      (List.range' a n).takeWhile ok = List.range' a m := by
  intro n
  induction n with
  | zero =>
      intro m a hm _ _
      have : m = 0 := Nat.le_zero.mp hm
      subst this
      rfl
  | succ n ih =>
      intro m a hm hgood hbad
      rw [List.range'_succ]
      cases m with
      | zero =>
          have h0 : ok a = false := by
            have := hbad (Nat.succ_pos n)
            simpa using this
          simp [List.takeWhile_cons, h0]
      | succ m =>
          have h0 : ok a = true := by
            have := hgood 0 (Nat.succ_pos m)
            simpa using this
          rw [List.takeWhile_cons, if_pos h0, List.range'_succ]
          congr 1
          refine ih m (a + 1) (Nat.lt_succ_iff.mp (Nat.lt_of_lt_of_le (Nat.lt_succ_self m) hm)) ?_ ?_
          · intro i hi
            have := hgood (i + 1) (Nat.succ_lt_succ hi)
            rwa [show a + (i + 1) = a + 1 + i by omega] at this
          · intro hlt
            have := hbad (Nat.succ_lt_succ hlt)
            rwa [show a + (m + 1) = a + 1 + m by omega] at this

/-- A page the loop gets past is productive in the claim's sense. -/
theorem specGood_of_pageOk (env : ScrapeEnv) (ub : String) (p : Nat)
    (h : pageOk env ub p = true) : specGood env ub p := by
  cases hf : env.fetcher (pageUrl ub p) with
  | none => simp [pageOk, pageItems, hf] at h
  | some html =>
      by_cases hh : html = ""
      · simp [pageOk, pageItems, hf, hh] at h
      · have hitems : pageItems env ub p = extract_items_from_page_text env.parse html := by
          simp [pageItems, hf, hh]
        rw [pageOk, hitems] at h
        refine ⟨html, hf, ?_⟩
        simpa using h

/-- A productive page is one the loop gets past, provided parsing an
empty page text yields no containers (as BeautifulSoup does). -/
theorem pageOk_of_specGood (env : ScrapeEnv) (ub : String) (p : Nat)
    (hparse : env.parse "" = []) (h : specGood env ub p) :
    pageOk env ub p = true := by
  obtain ⟨html, hf, hne⟩ := h
  have hh : html ≠ "" := by
    intro e
    subst e
    exact hne (by simp [extract_items_from_page_text, hparse])
  have hitems : pageItems env ub p = extract_items_from_page_text env.parse html := by
    simp [pageItems, hf, hh]
  rw [pageOk, hitems]
  simpa using hne

/-- The cleaned rows of a page are exactly its raw rows run through the
1:1 derivation. -/
theorem pageCleaned_eq_map (env : ScrapeEnv) (ub cat : String) (p : Nat) :
    pageCleaned env ub cat p = (pageRaw env ub cat p).map rawToCleaned := by
  rw [pageCleaned, pageRaw, List.map_map]
  rfl

/-- Horner evaluation of a digit list agrees with its positional value. -/
theorem foldl_digits_eq (ds : List Char) : ∀ acc : Nat,
    ds.foldl (fun acc c => 10 * acc + (c.toNat - 48)) acc =
      acc * 10 ^ ds.length + decValue ds := by
  induction ds with
  | nil => intro acc; simp [decValue]
  | cons c cs ih =>
      intro acc
      rw [List.foldl_cons, ih, decValue]
      simp [List.length_cons, pow_succ]
      ring

/-- Horner evaluation `digitsToNat` computes the positional base-10 value of its digits. -/
theorem digitsToNat_eq_decValue (ds : List Char) : digitsToNat ds = decValue ds := by
  rw [digitsToNat, foldl_digits_eq]
  simp

/-- C2: `clean_price_to_int` maps absent input to absent; otherwise it
keeps exactly the decimal digits of the input, yields absent when no
digit remains, and otherwise the base-10 positional value of the kept
digits; and the spec's five concrete examples hold
(`None ↦ None`, `"" ↦ None`, `"12 500 FCFA" ↦ 12500`, `"abc" ↦ None`,
`"0" ↦ 0`). -/
theorem clean_price_to_int_spec :
    clean_price_to_int none = none ∧
    clean_price_to_int (some "") = none ∧
    (∀ s : String,
      clean_price_to_int (some s) =
        (if s.toList.filter Char.isDigit = [] then none
         else some (decValue (s.toList.filter Char.isDigit)))) ∧
    clean_price_to_int (some "12 500 FCFA") = some 12500 ∧
    clean_price_to_int (some "abc") = none ∧
    clean_price_to_int (some "0") = some 0 := by
  refine ⟨rfl, rfl, ?_, by decide, by decide, by decide⟩
  intro s
  by_cases hs : s = ""
  · subst hs
    simp [clean_price_to_int]
  · rw [clean_price_to_int]
    simp only [hs, if_false, ite_false]
    cases hfd : s.toList.filter Char.isDigit with
    | nil => simp [hfd]
    | cons c cs => simp [hfd, digitsToNat_eq_decValue]

/-- C1: within one `scrape_category` invocation the raw and cleaned
sequences have the same length, the cleaned sequence is the pointwise 1:1
derivation of the raw sequence (so category, name, address, image_link
and scraped_at agree index by index), and at each index the cleaned price
is `clean_price_to_int` of the raw price. -/
theorem scrape_raw_cleaned_aligned (env : ScrapeEnv) (ub cat : String)
    (n : Nat) (cb : Bool) :
    (scrape_category env ub cat n cb).raw.length =
      (scrape_category env ub cat n cb).cleaned.length ∧
    (scrape_category env ub cat n cb).cleaned =
      (scrape_category env ub cat n cb).raw.map rawToCleaned ∧
    (∀ i : Nat,
      ((scrape_category env ub cat n cb).cleaned[i]?).map (fun c => c.price) =
        ((scrape_category env ub cat n cb).raw[i]?).map
          (fun r => clean_price_to_int r.price_raw)) := by
  have hmap : (scrape_category env ub cat n cb).cleaned =
      (scrape_category env ub cat n cb).raw.map rawToCleaned := by
    rw [scrape_category_eq]
    simp only [List.map_flatMap]
    exact List.flatMap_congr fun p _ => pageCleaned_eq_map env ub cat p
  refine ⟨by rw [hmap, List.length_map], hmap, ?_⟩
  intro i
  rw [hmap, List.getElem?_map, Option.map_map]
  rfl

/-- C3: with `max_pages ≥ 1`, if every page before `k` is productive
(fetch succeeds, extraction non-empty) and page `k ≤ max_pages` is not —
its fetch fails or its extraction is empty — then `scrape_category`
returns exactly the rows accumulated from pages `1 .. k-1`.  The loop
never reaches a later page, and since the embedding is a total function
the run is an ordinary return, not an exception.  `hparse` records the
BeautifulSoup fact that an empty page text parses to no containers. -/
theorem scrape_category_stops_at_first_bad (env : ScrapeEnv) (ub cat : String)
    (n : Nat) (cb : Bool) (k : Nat)
    (hparse : env.parse "" = [])
    (_hn : 1 ≤ n) (hk1 : 1 ≤ k) (hkn : k ≤ n)
    (hgood : ∀ p, 1 ≤ p → p < k → specGood env ub p)
    (hbad : ¬ specGood env ub k) :
    (scrape_category env ub cat n cb).raw =
      (List.range' 1 (k - 1)).flatMap (pageRaw env ub cat) ∧
    (scrape_category env ub cat n cb).cleaned =
      (List.range' 1 (k - 1)).flatMap (pageCleaned env ub cat) := by
  have hproc : processedPages env ub n = List.range' 1 (k - 1) := by
    rw [processedPages]
    refine takeWhile_range'_eq (pageOk env ub) n (k - 1) 1 (by omega) ?_ ?_
    · intro i hi
      exact pageOk_of_specGood env ub (1 + i) hparse
        (hgood (1 + i) (by omega) (by omega))
    · intro _
      have hek : 1 + (k - 1) = k := by omega
      rw [hek]
      cases hok : pageOk env ub k with
      | false => rfl
      | true => exact absurd (specGood_of_pageOk env ub k hok) hbad
  rw [scrape_category_eq]
  rw [hproc]
  exact ⟨rfl, rfl⟩

/-- C4: when every page in `1 .. N` is productive, `scrape_category`
processes exactly the `N` pages and returns the concatenation of their
`N` (non-empty) per-page batches; every row of page `p` carries the one
clock reading taken at the start of page `p`'s item processing, and —
the clock being injective across the run, as wall-clock readings on
distinct pages are — rows of distinct pages carry distinct timestamps. -/
theorem scrape_category_all_good (env : ScrapeEnv) (ub cat : String)
    (n : Nat) (cb : Bool)
    (hparse : env.parse "" = [])
    (hgood : ∀ p, 1 ≤ p → p ≤ n → specGood env ub p)
    (hclock : ∀ p q, 1 ≤ p → p ≤ n → 1 ≤ q → q ≤ n → p ≠ q →
      env.clock p ≠ env.clock q) :
    (scrape_category env ub cat n cb).raw =
      (List.range' 1 n).flatMap (pageRaw env ub cat) ∧
    (∀ p, 1 ≤ p → p ≤ n → pageRaw env ub cat p ≠ []) ∧
    (∀ p r, r ∈ pageRaw env ub cat p → r.scraped_at = env.clock p) ∧
    (∀ p q, 1 ≤ p → p ≤ n → 1 ≤ q → q ≤ n → p ≠ q →
      ∀ r ∈ pageRaw env ub cat p, ∀ r2 ∈ pageRaw env ub cat q,
        r.scraped_at ≠ r2.scraped_at) := by
  have hstamp : ∀ p r, r ∈ pageRaw env ub cat p → r.scraped_at = env.clock p := by
    intro p r hr
    rw [pageRaw] at hr
    obtain ⟨it, _, rfl⟩ := List.mem_map.mp hr
    rfl
  refine ⟨?_, ?_, hstamp, ?_⟩
  · have hproc : processedPages env ub n = List.range' 1 n := by
      rw [processedPages]
      refine takeWhile_range'_eq (pageOk env ub) n n 1 (le_refl n) ?_ ?_
      · intro i hi
        exact pageOk_of_specGood env ub (1 + i) hparse
          (hgood (1 + i) (by omega) (by omega))
      · intro h
        exact absurd h (lt_irrefl n)
    rw [scrape_category_eq, hproc]
  · intro p hp1 hpn
    have hok : pageOk env ub p = true :=
      pageOk_of_specGood env ub p hparse (hgood p hp1 hpn)
    rw [pageOk] at hok
    rw [pageRaw]
    intro hnil
    rw [List.map_eq_nil_iff.mp hnil] at hok
    simp at hok
  · intro p q hp1 hpn hq1 hqn hpq r hr r2 hr2
    rw [hstamp p r hr, hstamp q r2 hr2]
    exact hclock p q hp1 hpn hq1 hqn hpq

/-- A sample ad card with all three paragraph children present and no
image tag, for concrete runs. -/
def sampleCard : AdCard :=
  { descriptionText := some "Berger allemand",
    priceText := some "120 000 FCFA",
    locationText := some "Dakar",
    imgTag := none }

/-- A sample parse function: an empty page text holds no containers, any
other page text holds one sample card. -/
def sampleParse : String → List AdCard :=
  fun s => if s = "" then [] else [sampleCard]

/-- A concrete environment whose fetch succeeds only for page 1 of base
URL `"b"`. -/
def envStopsAt2 : ScrapeEnv :=
  { fetcher := fun u => if u = "b?page=1" then some "x" else none,
    parse := sampleParse,
    clock := fun p => toString p }

/-- Witness for the C3 theorem: in `envStopsAt2` page 1 is productive and
page 2's fetch fails, so a run with `max_pages = 5` returns exactly page
1's rows. -/
theorem scrape_category_stops_at_first_bad_witness :
    (scrape_category envStopsAt2 "b" "cat" 5 false).raw =
      (List.range' 1 1).flatMap (pageRaw envStopsAt2 "b" "cat") := by
  have hgood : ∀ p, 1 ≤ p → p < 2 → specGood envStopsAt2 "b" p := by
    intro p h1 h2
    have hp : p = 1 := by omega
    subst hp
    exact ⟨"x", by decide, by decide⟩
  have hbad : ¬ specGood envStopsAt2 "b" 2 := by
    intro h
    obtain ⟨html, hf, _⟩ := h
    have hnone : envStopsAt2.fetcher (pageUrl "b" 2) = none := by decide
    rw [hnone] at hf
    exact Option.noConfusion hf
  exact (scrape_category_stops_at_first_bad envStopsAt2 "b" "cat" 5 false 2
    (by decide) (by omega) (by omega) (by omega) hgood hbad).1

/-- A concrete environment whose fetch always succeeds with the same
non-empty content, with a clock that reads differently on each page. -/
def envAllGood : ScrapeEnv :=
  { fetcher := fun _ => some "x",
    parse := sampleParse,
    clock := fun p => toString p }

/-- Witness for the C4 theorem: in `envAllGood` every page is productive
and the clock is injective, so a run with `max_pages = 2` covers both
pages. -/
theorem scrape_category_all_good_witness :
    (scrape_category envAllGood "b" "cat" 2 false).raw =
      (List.range' 1 2).flatMap (pageRaw envAllGood "b" "cat") := by
  have hgood : ∀ p, 1 ≤ p → p ≤ 2 → specGood envAllGood "b" p := by
    intro p h1 h2
    exact ⟨"x", rfl, by decide⟩
  have hclock : ∀ p q, 1 ≤ p → p ≤ 2 → 1 ≤ q → q ≤ 2 → p ≠ q →
      envAllGood.clock p ≠ envAllGood.clock q := by
    intro p q hp1 hp2 hq1 hq2 hpq
    interval_cases p <;> interval_cases q <;> first | omega | decide
  exact (scrape_category_all_good envAllGood "b" "cat" 2 false
    (by decide) hgood hclock).1

/-- C5 counterexample: in the two-page run of `envAllGood` the two rows
carry the clock readings of pages 1 and 2, which differ — the timestamp
is not identical across all records of one invocation. -/
theorem scraped_at_not_invocation_constant :
    ¬ (∀ r ∈ (scrape_category envAllGood "b" "cat" 2 false).raw,
        ∀ r2 ∈ (scrape_category envAllGood "b" "cat" 2 false).raw,
          r.scraped_at = r2.scraped_at) := by
  decide

/-- C5 amended: every record's `scraped_at` is the (always present)
clock reading captured once at the start of its page's item processing:
the result splits into per-page batches and, within the batch of page
`p`, every raw and every cleaned record carries exactly `clock p` — the
timestamp is identical within a page, not across the whole invocation. -/
theorem scraped_at_set_once_per_page (env : ScrapeEnv) (ub cat : String)
    (n : Nat) (cb : Bool) :
    (scrape_category env ub cat n cb).raw =
      (processedPages env ub n).flatMap (pageRaw env ub cat) ∧
    (scrape_category env ub cat n cb).cleaned =
      (processedPages env ub n).flatMap (pageCleaned env ub cat) ∧
    (∀ p r, r ∈ pageRaw env ub cat p → r.scraped_at = env.clock p) ∧
    (∀ p c, c ∈ pageCleaned env ub cat p → c.scraped_at = env.clock p) := by
  rw [scrape_category_eq]
  refine ⟨rfl, rfl, ?_, ?_⟩
  · intro p r hr
    rw [pageRaw] at hr
    obtain ⟨it, _, rfl⟩ := List.mem_map.mp hr
    rfl
  · intro p c hc
    rw [pageCleaned] at hc
    obtain ⟨it, _, rfl⟩ := List.mem_map.mp hc
    rfl

/-- Witness for the amended C5 theorem: the first row of page 1 in the
`envAllGood` run carries clock reading `"1"`. -/
theorem scraped_at_set_once_per_page_witness :
    (rawRowOf "cat" (itemOfCard sampleCard) (envAllGood.clock 1)).scraped_at =
      envAllGood.clock 1 := by
  exact (scraped_at_set_once_per_page envAllGood "b" "cat" 2 false).2.2.1 1
    (rawRowOf "cat" (itemOfCard sampleCard) (envAllGood.clock 1)) (by decide)

/-- One guarded creation step leaves the table present and adds nothing
else: name membership after the step is membership before, or the new
table's name. -/
theorem hasTable_createTableIfNotExists (s : List Table) (t : Table) (n : String) :
    hasTable (createTableIfNotExists s t) n = (hasTable s n || t.name == n) := by
  rw [createTableIfNotExists]
  by_cases h : hasTable s t.name
  · rw [if_pos h]
    by_cases he : t.name = n
    · subst he
      simp [h]
    · have : (t.name == n) = false := by simpa using he
      rw [this, Bool.or_false]
  · rw [if_neg h]
    rw [hasTable, hasTable, List.any_append]
    simp

/-- A guarded creation step is a no-op when the table already exists. -/
theorem createTableIfNotExists_of_has (s : List Table) (t : Table)
    (h : hasTable s t.name = true) : createTableIfNotExists s t = s := by
  rw [createTableIfNotExists, if_pos h]

/-- The table names after one guarded creation step. -/
theorem tableNames_createTableIfNotExists (s : List Table) (t : Table) :
    tableNames (createTableIfNotExists s t) =
      (if hasTable s t.name then tableNames s else tableNames s ++ [t.name]) := by
  rw [createTableIfNotExists]
  by_cases h : hasTable s t.name
  · rw [if_pos h, if_pos h]
  · rw [if_neg h, if_neg h, tableNames, tableNames, List.map_append]
    rfl

/-- Absence of a table name in the membership test means absence in the
name list. -/
theorem not_mem_tableNames_of_not_has (s : List Table) (n : String)
    (h : hasTable s n = false) : n ∉ tableNames s := by
  intro hmem
  rw [tableNames] at hmem
  obtain ⟨t, ht, hn⟩ := List.mem_map.mp hmem
  have htrue : hasTable s n = true := by
    rw [hasTable, List.any_eq_true]
    exact ⟨t, ht, by simp [hn]⟩
  rw [h] at htrue
  exact Bool.noConfusion htrue

/-- One guarded creation step preserves distinctness of table names. -/
theorem nodup_createTableIfNotExists (s : List Table) (t : Table)
    (h : (tableNames s).Nodup) : (tableNames (createTableIfNotExists s t)).Nodup := by
  rw [tableNames_createTableIfNotExists]
  by_cases hh : hasTable s t.name
  · rw [if_pos hh]
    exact h
  · rw [if_neg hh]
    have hnm : t.name ∉ tableNames s :=
      not_mem_tableNames_of_not_has s t.name (by simpa using hh)
    simp [List.nodup_append, h, hnm]

/-- C6: schema provisioning creates the three collections when absent and
is idempotent — a second call returns the store unchanged (so, run twice
from a store with distinct table names, it yields no duplicate
collections), and the embedding being a total function it never errors. -/
theorem create_tables_if_not_exists_idempotent (s : List Table) :
    create_tables_if_not_exists (create_tables_if_not_exists s) =
      create_tables_if_not_exists s ∧
    hasTable (create_tables_if_not_exists s) "raw_ads" = true ∧
    hasTable (create_tables_if_not_exists s) "cleaned_ads" = true ∧
    hasTable (create_tables_if_not_exists s) "evaluations" = true ∧
    ((tableNames s).Nodup → (tableNames (create_tables_if_not_exists s)).Nodup) := by
  have hraw : hasTable (create_tables_if_not_exists s) "raw_ads" = true := by
    rw [create_tables_if_not_exists, hasTable_createTableIfNotExists,
      hasTable_createTableIfNotExists, hasTable_createTableIfNotExists]
    simp [rawAdsTable]
  have hcleaned : hasTable (create_tables_if_not_exists s) "cleaned_ads" = true := by
    rw [create_tables_if_not_exists, hasTable_createTableIfNotExists,
      hasTable_createTableIfNotExists, hasTable_createTableIfNotExists]
    simp [cleanedAdsTable]
  have heval : hasTable (create_tables_if_not_exists s) "evaluations" = true := by
    rw [create_tables_if_not_exists, hasTable_createTableIfNotExists,
      hasTable_createTableIfNotExists, hasTable_createTableIfNotExists]
    simp [evaluationsTable]
  refine ⟨?_, hraw, hcleaned, heval, ?_⟩
  · conv_lhs => rw [create_tables_if_not_exists]
    rw [createTableIfNotExists_of_has _ rawAdsTable hraw,
      createTableIfNotExists_of_has _ cleanedAdsTable hcleaned,
      createTableIfNotExists_of_has _ evaluationsTable heval]
  · intro h
    rw [create_tables_if_not_exists]
    exact nodup_createTableIfNotExists _ _
      (nodup_createTableIfNotExists _ _ (nodup_createTableIfNotExists _ _ h))

/-- Witness for the C6 theorem: provisioning the empty store yields
distinct table names. -/
theorem create_tables_if_not_exists_idempotent_witness :
    (tableNames (create_tables_if_not_exists [])).Nodup := by
  exact (create_tables_if_not_exists_idempotent []).2.2.2.2 (by simp [tableNames])

/-- C7: one `fetch_page` call issues exactly one request — no retry —
with timeout 12 and the fixed non-empty identification header; every
transport error and every 4xx/5xx status map to the same `none` (the
caller sees no status code), and a 2xx/3xx response yields its body. -/
theorem fetch_page_contract (http : HttpRequest → HttpResult) (url : String) :
    (fetch_page http url).2 =
      [{ url := url, userAgent := scraperUserAgent, timeout := 12 }] ∧
    scraperUserAgent ≠ "" ∧
    ((fetch_page http url).1 = none ↔
      ((∃ msg, http { url := url, userAgent := scraperUserAgent, timeout := 12 } =
          HttpResult.transportError msg) ∨
       (∃ status body,
          http { url := url, userAgent := scraperUserAgent, timeout := 12 } =
            HttpResult.ok status body ∧ 400 ≤ status ∧ status < 600))) ∧
    (∀ status body,
      http { url := url, userAgent := scraperUserAgent, timeout := 12 } =
        HttpResult.ok status body →
      ¬ (400 ≤ status ∧ status < 600) → (fetch_page http url).1 = some body) := by
  refine ⟨?_, by decide, ?_, ?_⟩
  · rw [fetch_page]
    cases http { url := url, userAgent := scraperUserAgent, timeout := 12 } with
    | ok status body => by_cases h : 400 ≤ status ∧ status < 600 <;> simp [h]
    | transportError msg => rfl
  · rw [fetch_page]
    cases hr : http { url := url, userAgent := scraperUserAgent, timeout := 12 } with
    | ok status body =>
        by_cases h : 400 ≤ status ∧ status < 600
        · simp only [h, if_true, ite_true]
          constructor
          · intro _
            exact Or.inr ⟨status, body, rfl, h⟩
          · intro _
            rfl
        · simp only [h, if_false, ite_false]
          constructor
          · intro hc
            exact Option.noConfusion hc
          · intro hc
            rcases hc with ⟨msg, hmsg⟩ | ⟨st, bd, hok, hrange⟩
            · exact HttpResult.noConfusion hmsg
            · injection hok with h1 h2
              subst h1
              exact absurd hrange h
        | transportError msg =>
            constructor
            · intro _
              exact Or.inl ⟨msg, rfl⟩
            · intro _
              rfl
  · intro status body hok hrange
    rw [fetch_page, hok]
    simp [hrange]

/-- Witness for the C7 theorem: a transport that answers 200 with body
`"page"` makes `fetch_page` return that body. -/
theorem fetch_page_contract_witness :
    (fetch_page (fun _ => HttpResult.ok 200 "page") "u").1 = some "page" := by
  exact (fetch_page_contract (fun _ => HttpResult.ok 200 "page") "u").2.2.2 200 "page"
    rfl (by omega)

/-- An ad card whose image child exists but carries neither a `src` nor a
`data-src` attribute. -/
def cardNoImgAttrs : AdCard :=
  { descriptionText := some "n",
    priceText := some "p",
    locationText := some "l",
    imgTag := some { src := none, dataSrc := none } }

/-- An ad card whose image child carries an empty `src` and a non-empty
`data-src`. -/
def cardEmptySrc : AdCard :=
  { descriptionText := none,
    priceText := none,
    locationText := none,
    imgTag := some { src := some "", dataSrc := some "lazy.jpg" } }

/-- C8 counterexample: on the first card the image child is present yet
the extracted image source is absent (refuting "each field is absent
exactly when the matching child element is absent"), and on the second
the primary attribute is present (empty string) yet the extractor takes
the lazy-load attribute (refuting "falls back only when the primary is
absent"). -/
theorem extract_image_field_counterexample :
    (extract_items_from_page_text (fun _ => [cardNoImgAttrs, cardEmptySrc]) "x").map
        (fun it => it.image_link) = [none, some "lazy.jpg"] ∧
    cardNoImgAttrs.imgTag = some { src := none, dataSrc := none } ∧
    cardEmptySrc.imgTag = some { src := some "", dataSrc := some "lazy.jpg" } := by
  decide

/-- C8 amended: the extractor returns exactly one item per container (a
page with zero containers yields the empty sequence, and no item is ever
dropped); the three text fields are each absent exactly when the matching
child is absent; the image source is the primary attribute when that is
present and non-empty, falls back to the lazy-load attribute when the
primary is absent or empty, and is absent exactly when the image child is
absent or the primary is absent/empty and the lazy-load attribute is
absent. -/
theorem extract_items_spec (parse : String → List AdCard) (content : String) :
    extract_items_from_page_text parse content = (parse content).map itemOfCard ∧
    (extract_items_from_page_text parse content).length = (parse content).length ∧
    (parse content = [] → extract_items_from_page_text parse content = []) ∧
    (∀ card : AdCard,
      (itemOfCard card).name = card.descriptionText ∧
      (itemOfCard card).price_raw = card.priceText ∧
      (itemOfCard card).address = card.locationText ∧
      ((itemOfCard card).image_link =
        (match card.imgTag with
         | none => none
         | some img => pyOrOpt img.src img.dataSrc))) ∧
    (∀ (s : String) (b : Option String), s ≠ "" → pyOrOpt (some s) b = some s) ∧
    (∀ b : Option String, pyOrOpt none b = b) ∧
    (∀ b : Option String, pyOrOpt (some "") b = b) ∧
    (∀ a b : Option String,
      (pyOrOpt a b = none ↔ ((a = none ∨ a = some "") ∧ b = none))) := by
  refine ⟨rfl, by rw [extract_items_from_page_text, List.length_map], ?_, ?_, ?_, ?_, ?_, ?_⟩
  · intro h
    rw [extract_items_from_page_text, h]
    rfl
  · intro card
    exact ⟨rfl, rfl, rfl, rfl⟩
  · intro s b hs
    rw [pyOrOpt]
    simp [hs]
  · intro b
    rfl
  · intro b
    rw [pyOrOpt]
    simp
  · intro a b
    cases a with
    | none => simp [pyOrOpt]
    | some s =>
        by_cases hs : s = ""
        · subst hs
          simp [pyOrOpt]
        · simp [pyOrOpt, hs]

/-- Witness for the amended C8 theorem: a present non-empty primary
attribute wins over the lazy-load attribute. -/
theorem extract_items_spec_witness :
    pyOrOpt (some "img.jpg") (some "lazy.jpg") = some "img.jpg" := by
  exact (extract_items_spec (fun _ => []) "").2.2.2.2.1 "img.jpg" (some "lazy.jpg")
    (by decide)

/-- The fetch-result transformation that turns empties into failures:
what `scrape_category`'s stop test `if not html` cannot tell apart. -/
def normalizeEmptyFetch (f : String → Option String) : String → Option String :=
  fun u =>
    match f u with
    | none => none
    | some s => if s = "" then none else some s

/-- Runs of `scrape_category` agree whenever the per-page items and the
clock agree. -/
theorem scrape_category_congr (env env2 : ScrapeEnv) (ub cat : String)
    (n : Nat) (cb : Bool)
    (hitems : ∀ p, pageItems env2 ub p = pageItems env ub p)
    (hclock : ∀ p, env2.clock p = env.clock p) :
    scrape_category env2 ub cat n cb = scrape_category env ub cat n cb := by
  have hok : pageOk env2 ub = pageOk env ub := by
    funext p
    rw [pageOk, pageOk, hitems p]
  have hpr : pageRaw env2 ub cat = pageRaw env ub cat := by
    funext p
    rw [pageRaw, pageRaw, hitems p, hclock p]
  have hpc : pageCleaned env2 ub cat = pageCleaned env ub cat := by
    funext p
    rw [pageCleaned, pageCleaned, hitems p, hclock p]
  have hpt : pageTrace env2 ub cat n cb = pageTrace env ub cat n cb := by
    funext p
    rw [pageTrace, pageTrace, hitems p, hclock p]
  rw [scrape_category_eq, scrape_category_eq, processedPages, processedPages,
    hok, hpr, hpc, hpt]

/-- C9: a successful fetch of empty content is indistinguishable from a
fetch failure — replacing every empty fetched content by a failure
changes nothing about the run (the loop stops at that page either way),
and the run never depends on what the extractor would do on empty
content, because the truthiness test `if not html` breaks first. -/
theorem empty_content_like_fetch_failure (env : ScrapeEnv) (ub cat : String)
    (n : Nat) (cb : Bool) :
    scrape_category
        { fetcher := normalizeEmptyFetch env.fetcher,
          parse := env.parse, clock := env.clock } ub cat n cb =
      scrape_category env ub cat n cb ∧
    (∀ parse2 : String → List AdCard,
      (∀ s, s ≠ "" → env.parse s = parse2 s) →
      scrape_category
          { fetcher := env.fetcher, parse := parse2, clock := env.clock }
          ub cat n cb =
        scrape_category env ub cat n cb) := by
  constructor
  · refine scrape_category_congr env _ ub cat n cb ?_ (fun _ => rfl)
    intro p
    rw [pageItems, pageItems]
    cases hf : env.fetcher (pageUrl ub p) with
    | none => simp [normalizeEmptyFetch, hf]
    | some s =>
        by_cases hs : s = ""
        · subst hs
          simp [normalizeEmptyFetch, hf]
        · simp [normalizeEmptyFetch, hf, hs]
  · intro parse2 hagree
    refine scrape_category_congr env _ ub cat n cb ?_ (fun _ => rfl)
    intro p
    rw [pageItems, pageItems]
    cases hf : env.fetcher (pageUrl ub p) with
    | none => rfl
    | some s =>
        by_cases hs : s = ""
        · subst hs
          rfl
        · simp [hs, extract_items_from_page_text, hagree s hs]

/-- A concrete environment whose fetch always yields empty content and
whose parse would (absurdly) find a container in empty text. -/
def envEmptyContent : ScrapeEnv :=
  { fetcher := fun _ => some "",
    parse := fun s => if s = "" then [sampleCard] else [],
    clock := fun p => toString p }

/-- Witness for the C9 theorem: in `envEmptyContent` the extractor's
behavior on empty content is irrelevant — replacing the parse function by
one that finds nothing at all leaves the run unchanged. -/
theorem empty_content_like_fetch_failure_witness :
    scrape_category
        { fetcher := envEmptyContent.fetcher, parse := fun _ => [],
          clock := envEmptyContent.clock } "b" "cat" 3 true =
      scrape_category envEmptyContent "b" "cat" 3 true := by
  exact (empty_content_like_fetch_failure envEmptyContent "b" "cat" 3 true).2
    (fun _ => []) (by
      intro s hs
      simp [envEmptyContent, hs])

/-- The only progress event a page contributes is its own, and only when
a callback is provided. -/
theorem filterMap_progressOf_pageTrace (env : ScrapeEnv) (ub cat : String)
    (n : Nat) (cb : Bool) (p : Nat) :
    (pageTrace env ub cat n cb p).filterMap progressOf =
      (if cb then [(p, n)] else []) := by
  rw [pageTrace, List.filterMap_append, List.filterMap_map]
  have h1 : ((pageItems env ub p).filterMap
      (progressOf ∘ fun it =>
        ScrapeEvent.append (rawRowOf cat it (env.clock p))
          (cleanedRowOf cat it (env.clock p)))) = [] := by
    simp [Function.comp, progressOf]
  rw [h1]
  cases cb with
  | false => rfl
  | true => rfl

/-- Progress events of a whole run: one pair per processed page. -/
theorem filterMap_progressOf_flatMap (env : ScrapeEnv) (ub cat : String)
    (n : Nat) (cb : Bool) : ∀ ps : List Nat,
    ((ps.flatMap (pageTrace env ub cat n cb)).filterMap progressOf) =
      (if cb then ps.map (fun p => (p, n)) else []) := by
  intro ps
  induction ps with
  | nil => cases cb <;> rfl
  | cons p rest ih =>
      rw [List.flatMap_cons, List.filterMap_append, ih,
        filterMap_progressOf_pageTrace]
      cases cb with
      | false => rfl
      | true => rfl

/-- C10: with a callback provided, one run's trace is, page by processed
page, that page's appended row pairs followed by one progress event with
arguments `(page, max_pages)`; so the callback fires exactly once per
page that contributed records — never for the page whose failed fetch or
empty extraction ends the loop — and the number of invocations equals the
number of contributing pages.  Without a callback no progress event
occurs. -/
theorem progress_callback_per_contributing_page (env : ScrapeEnv)
    (ub cat : String) (n : Nat) :
    (scrape_category env ub cat n true).trace =
      (processedPages env ub n).flatMap (pageTrace env ub cat n true) ∧
    (∀ p, pageTrace env ub cat n true p =
      ((pageItems env ub p).map (fun it =>
        ScrapeEvent.append (rawRowOf cat it (env.clock p))
          (cleanedRowOf cat it (env.clock p))))
        ++ [ScrapeEvent.progress p n]) ∧
    ((scrape_category env ub cat n true).trace.filterMap progressOf =
      (processedPages env ub n).map (fun p => (p, n))) ∧
    (((scrape_category env ub cat n true).trace.filterMap progressOf).length =
      (processedPages env ub n).length) ∧
    (∀ p, p ∈ processedPages env ub n → pageOk env ub p = true) ∧
    ((scrape_category env ub cat n false).trace.filterMap progressOf = []) := by
  have htrace : (scrape_category env ub cat n true).trace =
      (processedPages env ub n).flatMap (pageTrace env ub cat n true) := by
    rw [scrape_category_eq]
  have hfm : (scrape_category env ub cat n true).trace.filterMap progressOf =
      (processedPages env ub n).map (fun p => (p, n)) := by
    rw [htrace, filterMap_progressOf_flatMap]
    rfl
  refine ⟨htrace, ?_, hfm, ?_, ?_, ?_⟩
  · intro p
    rw [pageTrace]
    rfl
  · rw [hfm, List.length_map]
  · intro p hp
    exact List.mem_takeWhile_imp hp
  · rw [scrape_category_eq]
    rw [filterMap_progressOf_flatMap]
    rfl

/-- Witness for the C10 theorem: in the all-good two-page run, page 1 is
a contributing page, and the loop indeed got past it. -/
theorem progress_callback_per_contributing_page_witness :
    pageOk envAllGood "b" 1 = true := by
  exact (progress_callback_per_contributing_page envAllGood "b" "cat" 2).2.2.2.2.1 1
    (by decide)
